import Mathlib

/-!
# Verification of the saved-places bidirectional sync core

Shallow embedding of the three-way-merge sync engine:

* `ChangeDetector` — `src/sync/change-detector.js`
* `Merger` — `src/sync/merger.js`
* `Database` (pending-operation queue, sync log) — `src/db/index.js`
* repositories — `src/db/repositories/places.js`, `lists.js`, the
  place-lists and last-remote-state repositories
* `SyncOrchestrator` — `src/sync/index.js`

SQLite rows become Lean structures; the SHA-256 content hash is kept
abstract as a parameter `H : String → String` threaded through the state
(only hex digests of it are ever compared); JS `null`/`undefined` notes
become `Option String` with `none`; timestamps are natural numbers counted
in minutes.  Code that can throw is embedded with `Except String`.
-/

/-- A row of the `places` table (db/schema.sql, repositories/places.js). -/
structure Place where
  id : Nat
  google_place_id : String
  name : String
  notes : Option String
  notes_hash : Option String
  is_deleted : Bool
  deleted_locally : Bool
deriving DecidableEq, Repr

/-- A row of the `lists` table. -/
structure ListRow where
  id : Nat
  name : String
deriving DecidableEq, Repr

/-- A row of the `place_lists` association table. -/
structure PlaceListRow where
  place_id : Nat
  list_id : Nat
  deleted_locally : Bool
deriving DecidableEq, Repr

/-- A row of the `pending_operations` table.  The merger only enqueues
payloads of the form `{placeId, listId}`, embedded as a pair. -/
structure PendingOperation where
  id : Nat
  operation_type : String
  payload : Nat × Nat
  status : String
  retry_count : Nat
  max_retries : Nat
  next_retry_at : Option Nat
  error_message : Option String
  created_at : Nat
deriving DecidableEq, Repr

/-- One structured error record accumulated into the stats of a sync run. -/
structure SyncError where
  list : Option String
  phase : String
  error : String
deriving DecidableEq, Repr

/-- The `stats` object threaded through `quickSync` / `deepSync`. -/
structure SyncStats where
  placesPulled : Nat
  operationsPushed : Nat
  conflictsDetected : Nat
  status : String
  errors : List SyncError
deriving DecidableEq, Repr

/-- A row of the `sync_log` table; `completed` models
`completed_at IS NOT NULL`. -/
structure SyncLogRow where
  id : Nat
  sync_type : String
  places_pulled : Nat
  operations_pushed : Nat
  conflicts_detected : Nat
  errors : List SyncError
  status : String
  completed : Bool
deriving DecidableEq, Repr

/-- One place scraped from the remote list view.  Only the fields the
detector reads (`google_place_id`, `notes`) are kept; `name`/`url` are
carried along by the scraper but never consulted by the sync core. -/
structure RemotePlace where
  google_place_id : String
  notes : Option String
deriving DecidableEq, Repr

/-- The whole durable state reachable from the `Database` facade:
the local store, the `last_remote_state` base store (split by entity
type, with the injective key strings `place_<id>` and
`place_<id>_list_<id>` replaced by their components), the pending
operation queue and the sync log.  `H` is the SHA-256 hex digest,
abstract.  `now` is the wall clock (`CURRENT_TIMESTAMP`), in minutes. -/
structure Db where
  H : String → String
  places : List Place
  lists : List ListRow
  placeLists : List PlaceListRow
  baseNotes : List (Nat × String)
  baseAssoc : List ((Nat × Nat) × String)
  pendingOps : List PendingOperation
  nextOpId : Nat
  now : Nat
  syncLog : List SyncLogRow
  nextSyncId : Nat

/-- The decision record built by `detectPlaceNotesChange`. -/
structure NotesChange where
  type : String
  entity : String
  placeId : Nat
  localValue : Option String
  remoteValue : Option String
  baseValue : Option String
  resolution : String
deriving DecidableEq, Repr

/-- The decision record built by `detectPlaceListChange`. -/
structure AssociationChange where
  type : String
  entity : String
  placeId : Nat
  listId : Nat
  existsLocal : Bool
  existsRemote : Bool
  existedInBase : Bool
  resolution : String
deriving DecidableEq, Repr

/-- The `{ notesChanges, associationChanges, conflicts }` aggregate of
`detectChangesForList`; the heterogeneous JS `conflicts` array becomes a
list of sums. -/
structure Changes where
  notesChanges : List NotesChange
  associationChanges : List AssociationChange
  conflicts : List (Sum NotesChange AssociationChange)
deriving DecidableEq, Repr

/-- `ON CONFLICT ... DO UPDATE` upsert on an association-list keyed store:
an existing key has its value replaced in place, a new key is appended. -/
def upsertRow {κ ν : Type} [DecidableEq κ] (m : List (κ × ν)) (k : κ) (v : ν) :
    List (κ × ν) :=
  if m.any (fun e => decide (e.1 = k)) then
    m.map (fun e => if e.1 = k then (k, v) else e)
  else m ++ [(k, v)]

namespace PlacesRepository

/-- `PlacesRepository.hashNotes`: `if (!notes) return null` — every falsy
value (null, undefined, and the empty string) maps to `none`, everything
else to its digest. -/
def hashNotes (H : String → String) : Option String → Option String
  | none => none
  | some s => if s = "" then none else some (H s)

/-- `SELECT * FROM places WHERE id = ?`. -/
def findById (db : Db) (id : Nat) : Option Place :=
  db.places.find? (fun p => decide (p.id = id))

/-- `SELECT * FROM places WHERE google_place_id = ?`. -/
def findByGoogleId (db : Db) (gid : String) : Option Place :=
  db.places.find? (fun p => decide (p.google_place_id = gid))

/-- `UPDATE places SET notes = ?, notes_hash = ? WHERE id = ?`. -/
def updateNotes (db : Db) (id : Nat) (notes : Option String) : Db :=
  { db with
    places := db.places.map (fun p =>
      if p.id = id then
        { p with notes := notes, notes_hash := hashNotes db.H notes }
      else p) }

end PlacesRepository

namespace ListsRepository

/-- `SELECT * FROM lists WHERE name = ?`. -/
def findByName (db : Db) (name : String) : Option ListRow :=
  db.lists.find? (fun l => decide (l.name = name))

end ListsRepository

namespace PlaceListsRepository

/-- `INSERT OR IGNORE INTO place_lists (place_id, list_id) VALUES (?, ?)`:
the `(place_id, list_id)` primary key makes the insert a no-op when a row
with that key exists (even one flagged `deleted_locally`). -/
def add (db : Db) (placeId listId : Nat) : Db :=
  if db.placeLists.any (fun a => decide (a.place_id = placeId ∧ a.list_id = listId)) then
    db
  else
    { db with
      placeLists := db.placeLists ++
        [{ place_id := placeId, list_id := listId, deleted_locally := false }] }

/-- `DELETE FROM place_lists WHERE place_id = ? AND list_id = ?`. -/
def remove (db : Db) (placeId listId : Nat) : Db :=
  { db with
    placeLists := db.placeLists.filter (fun a =>
      !(decide (a.place_id = placeId ∧ a.list_id = listId))) }

/-- The join of `findPlacesInList`: places of a list, excluding soft-deleted
places and locally removed associations.  (The `ORDER BY added_at DESC` of
the SQL only permutes the rows; the detector keys them by the unique
`google_place_id`.) -/
def findPlacesInList (db : Db) (listId : Nat) : List Place :=
  (db.placeLists.filter (fun a =>
      decide (a.list_id = listId) && !a.deleted_locally)).filterMap
    (fun a => db.places.find? (fun p => decide (p.id = a.place_id) && !p.is_deleted))

end PlaceListsRepository

namespace LastRemoteStateRepository

/-- `getPlaceNotes`: the stored `state_hash` of the `place_notes` row, or
`null` when the row is absent.  The schema declares
`state_hash TEXT NOT NULL`, so a stored row always has a string value. -/
def getPlaceNotes (db : Db) (placeId : Nat) : Option String :=
  (db.baseNotes.find? (fun e => decide (e.1 = placeId))).map (fun e => e.2)

/-- `savePlaceNotes`: upsert of the `place_notes` base row.  The caller
may pass `null` (`hashNotes` of null or empty notes does), but
`last_remote_state.state_hash` is `TEXT NOT NULL`, so the underlying
`INSERT ... ON CONFLICT` throws a constraint error on a null hash and
writes nothing. -/
def savePlaceNotes (db : Db) (placeId : Nat) (notesHash : Option String) :
    Except String Db :=
  match notesHash with
  | none => Except.error "NOT NULL constraint failed: last_remote_state.state_hash"
  | some h => Except.ok { db with baseNotes := upsertRow db.baseNotes placeId h }

/-- `getPlaceListAssociation`: the stored token of the association base
row (the literal `exists` / `not_exists`), or `null` when absent. -/
def getPlaceListAssociation (db : Db) (placeId listId : Nat) : Option String :=
  (db.baseAssoc.find? (fun e => decide (e.1 = (placeId, listId)))).map (fun e => e.2)

/-- `savePlaceListAssociation`: upsert of the association base row with the
token `exists` or `not_exists` — always a non-null string, so the
`state_hash NOT NULL` constraint can never fire on this path. -/
def savePlaceListAssociation (db : Db) (placeId listId : Nat) (ex : Bool) : Db :=
  { db with
    baseAssoc := upsertRow db.baseAssoc (placeId, listId)
      (if ex then "exists" else "not_exists") }

end LastRemoteStateRepository

namespace ChangeDetector

/-- `ChangeDetector.hash`: only `null`/`undefined` map to `None`; every
string — the empty string included — is digested. -/
def hash (H : String → String) : Option String → Option String
  | none => none
  | some s => some (H s)

/-- `detectPlaceNotesChange` (change-detector.js 24–88): three-way scalar
classification of the notes of a place by hash comparison against the stored
base fingerprint. -/
def detectPlaceNotesChange (db : Db) (placeId : Nat)
    (localNotes remoteNotes : Option String) : Option NotesChange :=
  let baseHash := LastRemoteStateRepository.getPlaceNotes db placeId
  let localHash := hash db.H localNotes
  let remoteHash := hash db.H remoteNotes
  if localHash = remoteHash ∧ localHash = baseHash then none
  else if localHash ≠ baseHash ∧ remoteHash = baseHash then
    some { type := "local_change", entity := "place_notes", placeId := placeId,
           localValue := localNotes, remoteValue := remoteNotes,
           baseValue := baseHash, resolution := "keep_local" }
  else if remoteHash ≠ baseHash ∧ localHash = baseHash then
    some { type := "remote_change", entity := "place_notes", placeId := placeId,
           localValue := localNotes, remoteValue := remoteNotes,
           baseValue := baseHash, resolution := "take_remote" }
  else if localHash ≠ baseHash ∧ remoteHash ≠ baseHash ∧ localHash ≠ remoteHash then
    some { type := "conflict", entity := "place_notes", placeId := placeId,
           localValue := localNotes, remoteValue := remoteNotes,
           baseValue := baseHash, resolution := "local_wins" }
  else if localHash = remoteHash ∧ localHash ≠ baseHash then
    some { type := "synchronized", entity := "place_notes", placeId := placeId,
           localValue := localNotes, remoteValue := remoteNotes,
           baseValue := baseHash, resolution := "already_synced" }
  else none

/-- `detectPlaceListChange` (change-detector.js 94–188): membership
classification from the `(existedInBase, existsLocal, existsRemote)`
booleans, `existedInBase` being read off the base store. -/
def detectPlaceListChange (db : Db) (placeId listId : Nat)
    (existsLocal existsRemote : Bool) : Option AssociationChange :=
  let baseState := LastRemoteStateRepository.getPlaceListAssociation db placeId listId
  let existedInBase : Bool := decide (baseState = some "exists")
  if existsLocal = existsRemote ∧ existsLocal = existedInBase then none
  else if existsLocal = true ∧ existsRemote = false ∧ existedInBase = false then
    some { type := "local_add", entity := "place_list", placeId := placeId,
           listId := listId, existsLocal := existsLocal, existsRemote := existsRemote,
           existedInBase := existedInBase, resolution := "push_add" }
  else if existsLocal = false ∧ existsRemote = true ∧ existedInBase = true then
    some { type := "local_remove", entity := "place_list", placeId := placeId,
           listId := listId, existsLocal := existsLocal, existsRemote := existsRemote,
           existedInBase := existedInBase, resolution := "push_remove" }
  else if existsRemote = true ∧ existsLocal = false ∧ existedInBase = false then
    some { type := "remote_add", entity := "place_list", placeId := placeId,
           listId := listId, existsLocal := existsLocal, existsRemote := existsRemote,
           existedInBase := existedInBase, resolution := "add_locally" }
  else if existsRemote = false ∧ existsLocal = true ∧ existedInBase = true then
    some { type := "remote_remove", entity := "place_list", placeId := placeId,
           listId := listId, existsLocal := existsLocal, existsRemote := existsRemote,
           existedInBase := existedInBase, resolution := "remove_locally" }
  else if existsLocal = true ∧ existsRemote = false ∧ existedInBase = true then
    some { type := "conflict", entity := "place_list", placeId := placeId,
           listId := listId, existsLocal := existsLocal, existsRemote := existsRemote,
           existedInBase := existedInBase, resolution := "local_wins" }
  else if existsLocal = false ∧ existsRemote = true ∧ existedInBase = true then
    some { type := "conflict", entity := "place_list", placeId := placeId,
           listId := listId, existsLocal := existsLocal, existsRemote := existsRemote,
           existedInBase := existedInBase, resolution := "local_wins" }
  else none

/-- `Map.set` of a JS `Map`: replacing an existing key keeps its position,
a new key is appended. -/
def mapSet {α : Type} (m : List (String × α)) (k : String) (v : α) :
    List (String × α) :=
  if m.any (fun e => decide (e.1 = k)) then
    m.map (fun e => if e.1 = k then (k, v) else e)
  else m ++ [(k, v)]

/-- Building the `localPlaceMap` / `remotePlaceMap` lookup maps with
`forEach(p => map.set(key(p), p))`. -/
def buildPlaceMap {α : Type} (key : α → String) (xs : List α) :
    List (String × α) :=
  xs.foldl (fun m x => mapSet m (key x) x) []

/-- `Map.get`. -/
def mapGet {α : Type} (m : List (String × α)) (k : String) : Option α :=
  (m.find? (fun e => decide (e.1 = k))).map (fun e => e.2)

/-- The empty `{ notesChanges: [], associationChanges: [], conflicts: [] }`. -/
def emptyChanges : Changes :=
  { notesChanges := [], associationChanges := [], conflicts := [] }

/-- `detectChangesForList` (change-detector.js 196–276): joins the local and
remote place sets of one list by `google_place_id` and runs the two
primitives per entity seen on either side.  Note the source function takes
no incremental-mode flag — the third argument the orchestrator passes is
silently dropped. -/
def detectChangesForList (db : Db) (listName : String)
    (remotePlaces : List RemotePlace) : Except String Changes :=
  match ListsRepository.findByName db listName with
  | none => Except.error ("List not found: " ++ listName)
  | some list =>
    let localPlaces := PlaceListsRepository.findPlacesInList db list.id
    let localPlaceMap := buildPlaceMap (fun p => p.google_place_id) localPlaces
    let remotePlaceMap := buildPlaceMap (fun p => p.google_place_id) remotePlaces
    let localKeys := localPlaceMap.map (fun e => e.1)
    let remoteKeys := remotePlaceMap.map (fun e => e.1)
    let allPlaceIds := localKeys ++ remoteKeys.filter (fun k => !(localKeys.contains k))
    Except.ok (allPlaceIds.foldl (fun changes googlePlaceId =>
      let localPlace := mapGet localPlaceMap googlePlaceId
      let remotePlace := mapGet remotePlaceMap googlePlaceId
      let changes :=
        match localPlace, remotePlace with
        | some lp, some rp =>
          match detectPlaceNotesChange db lp.id lp.notes rp.notes with
          | some nc =>
            { changes with
              notesChanges := changes.notesChanges ++ [nc],
              conflicts :=
                if nc.type = "conflict" then changes.conflicts ++ [Sum.inl nc]
                else changes.conflicts }
          | none => changes
        | _, _ => changes
      let existsL := localPlace.isSome
      let existsR := remotePlace.isSome
      let placeId : Option Nat :=
        match localPlace with
        | some lp => some lp.id
        | none =>
          match remotePlace with
          | some _ => (PlacesRepository.findByGoogleId db googlePlaceId).map (fun p => p.id)
          | none => none
      match placeId with
      | some pid =>
        -- `if (placeId)`: a JS falsy id (0) is skipped too
        if pid ≠ 0 then
          match detectPlaceListChange db pid list.id existsL existsR with
          | some ac =>
            { changes with
              associationChanges := changes.associationChanges ++ [ac],
              conflicts :=
                if ac.type = "conflict" then changes.conflicts ++ [Sum.inr ac]
                else changes.conflicts }
          | none => changes
        else changes
      | none => changes) emptyChanges)

end ChangeDetector

namespace Database

/-- `addPendingOperation` (db/index.js 56–62): insert a fresh queue row;
the schema supplies `status = pending`, `retry_count = 0`,
`max_retries = 3`, `next_retry_at = NULL`, `created_at = CURRENT_TIMESTAMP`. -/
def addPendingOperation (db : Db) (operationType : String) (payload : Nat × Nat) : Db :=
  { db with
    pendingOps := db.pendingOps ++
      [{ id := db.nextOpId, operation_type := operationType, payload := payload,
         status := "pending", retry_count := 0, max_retries := 3,
         next_retry_at := none, error_message := none, created_at := db.now }],
    nextOpId := db.nextOpId + 1 }

/-- The `WHERE` clause of `getPendingOperations`:
`status = pending AND (next_retry_at IS NULL OR next_retry_at <= now)`. -/
def readyFilter (now : Nat) (o : PendingOperation) : Bool :=
  decide (o.status = "pending") &&
    (match o.next_retry_at with
     | none => true
     | some t => decide (t ≤ now))

/-- The `ORDER BY created_at ASC` ordering. -/
def createdLe (a b : PendingOperation) : Prop :=
  a.created_at ≤ b.created_at

instance : DecidableRel createdLe := fun _ _ => Nat.decLe _ _

instance : IsTotal PendingOperation createdLe :=
  ⟨fun _ _ => Nat.le_total _ _⟩

instance : IsTrans PendingOperation createdLe :=
  ⟨fun _ _ _ h h2 => Nat.le_trans h h2⟩

/-- `getPendingOperations` (db/index.js 67–80): the ready subset of the
queue, ascending by creation time. -/
def getPendingOperations (now : Nat) (db : Db) : List PendingOperation :=
  List.insertionSort createdLe (db.pendingOps.filter (readyFilter now))

/-- The `SET` clause of `retryOperation` applied to one row:
`retry_count += 1`, `next_retry_at = now + (retry_count + 1) * 5 minutes`,
`status = failed` when the new count reaches `max_retries`, else
`pending`. -/
def retryStep (now : Nat) (errorMessage : String) (o : PendingOperation) :
    PendingOperation :=
  { o with
    retry_count := o.retry_count + 1,
    error_message := some errorMessage,
    next_retry_at := some (now + 5 * (o.retry_count + 1)),
    status := if o.max_retries ≤ o.retry_count + 1 then "failed" else "pending" }

/-- `retryOperation` (db/index.js 99–112): the row update scoped by
`WHERE id = ?`. -/
def retryOperation (now : Nat) (db : Db) (operationId : Nat) (errorMessage : String) :
    Db :=
  { db with
    pendingOps := db.pendingOps.map (fun o =>
      if o.id = operationId then retryStep now errorMessage o else o) }

/-- `startSync`: insert an `in_progress` sync-log row and return its id
(the row id is `db.nextSyncId` at the call). -/
def startSync (db : Db) (syncType : String) : Db :=
  { db with
    syncLog := db.syncLog ++
      [{ id := db.nextSyncId, sync_type := syncType, places_pulled := 0,
         operations_pushed := 0, conflicts_detected := 0, errors := [],
         status := "in_progress", completed := false }],
    nextSyncId := db.nextSyncId + 1 }

/-- `completeSync`: update the log row with the counters of the run, error list
and terminal status, stamping `completed_at`. -/
def completeSync (db : Db) (syncId : Nat) (stats : SyncStats) : Db :=
  { db with
    syncLog := db.syncLog.map (fun e =>
      if e.id = syncId then
        { e with
          places_pulled := stats.placesPulled,
          operations_pushed := stats.operationsPushed,
          conflicts_detected := stats.conflictsDetected,
          errors := stats.errors,
          status := stats.status,
          completed := true }
      else e) }

end Database

namespace Merger

/-- Outcome of one fallible merger step against the shared database: the
mutations performed before a throw persist (the JS database is shared
state, not a transaction), so an error carries the state as it stood when
the throw happened. -/
def stepResult (dbOnError : Db) : Except String Db → Db × Option String
  | Except.ok db2 => (db2, none)
  | Except.error e => (dbOnError, some e)

/-- `applyNotesChange` (merger.js 21–59): a missing place is warned about
and skipped; otherwise the switch on the resolution of the decision.
Every branch ends in `savePlaceNotes`, which throws the
`state_hash NOT NULL` constraint error when the hash is null (null or
empty notes); in the `take_remote` branch the preceding `updateNotes` has
already run by then and persists. -/
def applyNotesChange (db : Db) (change : NotesChange) : Db × Option String :=
  match PlacesRepository.findById db change.placeId with
  | none => (db, none)
  | some _ =>
    if change.resolution = "keep_local" then
      stepResult db (LastRemoteStateRepository.savePlaceNotes db change.placeId
        (PlacesRepository.hashNotes db.H change.localValue))
    else if change.resolution = "take_remote" then
      let db := PlacesRepository.updateNotes db change.placeId change.remoteValue
      stepResult db (LastRemoteStateRepository.savePlaceNotes db change.placeId
        (PlacesRepository.hashNotes db.H change.remoteValue))
    else if change.resolution = "local_wins" then
      stepResult db (LastRemoteStateRepository.savePlaceNotes db change.placeId
        (PlacesRepository.hashNotes db.H change.localValue))
    else if change.resolution = "already_synced" then
      stepResult db (LastRemoteStateRepository.savePlaceNotes db change.placeId
        (PlacesRepository.hashNotes db.H change.localValue))
    else (db, none)

/-- `applyAssociationChange` (merger.js 64–126): the switch on the
resolution of the decision, enqueueing push operations and keeping the base
store in step with the converged truth. -/
def applyAssociationChange (db : Db) (change : AssociationChange) : Db :=
  if change.resolution = "push_add" then
    let db := Database.addPendingOperation db "add_place_to_list"
      (change.placeId, change.listId)
    LastRemoteStateRepository.savePlaceListAssociation db change.placeId change.listId true
  else if change.resolution = "push_remove" then
    let db := Database.addPendingOperation db "remove_place_from_list"
      (change.placeId, change.listId)
    LastRemoteStateRepository.savePlaceListAssociation db change.placeId change.listId false
  else if change.resolution = "add_locally" then
    let db := PlaceListsRepository.add db change.placeId change.listId
    LastRemoteStateRepository.savePlaceListAssociation db change.placeId change.listId true
  else if change.resolution = "remove_locally" then
    let db := PlaceListsRepository.remove db change.placeId change.listId
    LastRemoteStateRepository.savePlaceListAssociation db change.placeId change.listId false
  else if change.resolution = "local_wins" then
    if change.existsLocal then
      let db := Database.addPendingOperation db "add_place_to_list"
        (change.placeId, change.listId)
      LastRemoteStateRepository.savePlaceListAssociation db change.placeId change.listId true
    else
      let db := Database.addPendingOperation db "remove_place_from_list"
        (change.placeId, change.listId)
      LastRemoteStateRepository.savePlaceListAssociation db change.placeId change.listId false
  else db

/-- One `for ... { try { apply; applied++; if (conflict) conflicts++ }
catch { skip } }` loop of `applyChanges`, threading
`(state, applied, conflicts)`.  The per-decision applier is a parameter:
in the source the body can throw from any store call, which the loop
catches and skips. -/
def runBatch {σ α : Type} (apply1 : σ → α → Except String σ)
    (isConflict : α → Bool) :
    σ × Nat × Nat → List α → σ × Nat × Nat
  | acc, [] => acc
  | (st, applied, conflicts), change :: rest =>
    match apply1 st change with
    | Except.ok st2 =>
        runBatch apply1 isConflict
          (st2, applied + 1, if isConflict change then conflicts + 1 else conflicts) rest
    | Except.error _ => runBatch apply1 isConflict (st, applied, conflicts) rest

/-- `applyChanges` (merger.js 133–171) with the two per-decision appliers
abstracted as fallible functions: the notes loop runs first, then the
association loop; the `conflicts` array of the input is never consulted. -/
def applyChangesF {σ : Type} (applyN : σ → NotesChange → Except String σ)
    (applyA : σ → AssociationChange → Except String σ)
    (st : σ) (changes : Changes) : σ × Nat × Nat :=
  let afterNotes :=
    runBatch applyN (fun c => decide (c.type = "conflict")) (st, 0, 0) changes.notesChanges
  runBatch applyA (fun c => decide (c.type = "conflict")) afterNotes
    changes.associationChanges

/-- `applyChanges` with the concrete merger appliers.  The notes loop
catches the per-decision constraint throw: the counters are left alone
and the loop continues against the database as the failed application
left it.  The association appliers have no modeled failure source
(`savePlaceListAssociation` always stores a non-null token), so their
`catch` never fires and every association decision counts as applied. -/
def applyChanges (db : Db) (changes : Changes) : Db × Nat × Nat :=
  let afterNotes := changes.notesChanges.foldl
    (fun (acc : Db × Nat × Nat) change =>
      match applyNotesChange acc.1 change with
      | (db2, none) =>
        (db2, acc.2.1 + 1,
          if change.type = "conflict" then acc.2.2 + 1 else acc.2.2)
      | (db2, some _) => (db2, acc.2.1, acc.2.2))
    (db, 0, 0)
  changes.associationChanges.foldl
    (fun (acc : Db × Nat × Nat) change =>
      (applyAssociationChange acc.1 change, acc.2.1 + 1,
        if change.type = "conflict" then acc.2.2 + 1 else acc.2.2))
    afterNotes

end Merger

namespace SyncOrchestrator

/-- The shared body of `quickSync` (sync/index.js 27–245) and `deepSync`
(250–457) — the source duplicates it verbatim except for the `sync_type`
string, the scrape limit (50 vs unlimited, which here only shapes the
`outcomes` input produced by the external scraper) and the
incremental-mode flag that `detectChangesForList` drops.

`outcomes` is the observable behaviour of the scraping collaborator, in
list order: `(name, some places)` for a list that was scraped,
`(name, none)` for one whose navigation or scrape failed.

The PULL loop partitions the outcomes into `remoteState` and
`failedLists` in order; the PULL_VALIDATION gate aborts when any list
failed: the stats of the run are completed as `failed` and the thrown error is
re-caught by the surrounding try/catch, which appends a sync-phase error,
completes the log row again and rethrows to the caller. -/
def syncRun (syncType : String) (dryRun : Bool) (db : Db)
    (outcomes : List (String × Option (List RemotePlace))) :
    Except String SyncStats × Db :=
  let syncId := db.nextSyncId
  let db := Database.startSync db syncType
  let remoteState := outcomes.filterMap (fun o => o.2.map (fun places => (o.1, places)))
  let failedLists := (outcomes.filter (fun o => o.2.isNone)).map (fun o => o.1)
  let pullErrors : List SyncError := failedLists.map (fun name =>
    { list := some name, phase := "pull", error := "Failed to scrape list" })
  let placesPulled := (remoteState.map (fun e => e.2.length)).sum
  if 0 < failedLists.length then
    let stats1 : SyncStats :=
      { placesPulled := placesPulled, operationsPushed := 0, conflictsDetected := 0,
        status := "failed", errors := pullErrors }
    let db := Database.completeSync db syncId stats1
    let msg := "Pull phase failed: lists could not be scraped"
    let stats2 : SyncStats :=
      { stats1 with
        errors := stats1.errors ++ [{ list := none, phase := "sync", error := msg }] }
    let db := Database.completeSync db syncId stats2
    (Except.error msg, db)
  else
    let detected := remoteState.foldl
      (fun (acc : Changes × List SyncError) entry =>
        match ChangeDetector.detectChangesForList db entry.1 entry.2 with
        | Except.ok cs =>
          ({ notesChanges := acc.1.notesChanges ++ cs.notesChanges,
             associationChanges := acc.1.associationChanges ++ cs.associationChanges,
             conflicts := acc.1.conflicts ++ cs.conflicts }, acc.2)
        | Except.error e =>
          (acc.1, acc.2 ++ [{ list := some entry.1, phase := "detect", error := e }]))
      (ChangeDetector.emptyChanges, pullErrors)
    let allChanges := detected.1
    let errors := detected.2
    let conflictsDetected := allChanges.conflicts.length
    let db := if dryRun then db else (Merger.applyChanges db allChanges).1
    -- PUSH only reads the ready queue for reporting; operationsPushed stays 0
    let stats : SyncStats :=
      { placesPulled := placesPulled, operationsPushed := 0,
        conflictsDetected := conflictsDetected,
        status := if errors.length = 0 then "success" else "partial",
        errors := errors }
    let db := Database.completeSync db syncId stats
    (Except.ok stats, db)

/-- `quickSync`: incremental pull (first 50 places per list). -/
def quickSync (dryRun : Bool) (db : Db)
    (outcomes : List (String × Option (List RemotePlace))) :
    Except String SyncStats × Db :=
  syncRun "quick" dryRun db outcomes

/-- `deepSync`: full pull (no per-list limit). -/
def deepSync (dryRun : Bool) (db : Db)
    (outcomes : List (String × Option (List RemotePlace))) :
    Except String SyncStats × Db :=
  syncRun "deep" dryRun db outcomes

end SyncOrchestrator

/-! ## Helper lemmas about the keyed stores -/

theorem find?_map_replace {κ ν : Type} [DecidableEq κ]
    (m : List (κ × ν)) (k : κ) (v : ν)
    (h : m.any (fun e => decide (e.1 = k)) = true) :
    (m.map (fun e => if e.1 = k then (k, v) else e)).find?
        (fun e => decide (e.1 = k)) = some (k, v) := by
  induction m with
  | nil => simp at h
  | cons a t ih =>
    by_cases ha : a.1 = k
    · simp [List.find?, ha]
    · simp only [List.any_cons, Bool.or_eq_true, decide_eq_true_eq] at h
      rcases h with h | h
      · exact absurd h ha
      · simp only [List.map_cons, List.find?, if_neg ha, decide_eq_false ha]
        exact ih h

theorem find?_append_new {κ ν : Type} [DecidableEq κ]
    (m : List (κ × ν)) (k : κ) (v : ν)
    (h : m.any (fun e => decide (e.1 = k)) = false) :
    (m ++ [(k, v)]).find? (fun e => decide (e.1 = k)) = some (k, v) := by
  induction m with
  | nil => simp [List.find?]
  | cons a t ih =>
    simp only [List.any_cons, Bool.or_eq_false_iff, decide_eq_false_iff_not] at h
    simp only [List.cons_append, List.find?, decide_eq_false h.1]
    exact ih h.2

theorem find?_upsertRow {κ ν : Type} [DecidableEq κ]
    (m : List (κ × ν)) (k : κ) (v : ν) :
    (upsertRow m k v).find? (fun e => decide (e.1 = k)) = some (k, v) := by
  unfold upsertRow
  by_cases h : m.any (fun e => decide (e.1 = k))
  · rw [if_pos h]
    exact find?_map_replace m k v h
  · rw [if_neg h]
    exact find?_append_new m k v (Bool.eq_false_iff.mpr h)

theorem getPlaceNotes_upsert (db : Db) (placeId : Nat) (h : String) :
    LastRemoteStateRepository.getPlaceNotes
      { db with baseNotes := upsertRow db.baseNotes placeId h } placeId = some h := by
  unfold LastRemoteStateRepository.getPlaceNotes
  rw [find?_upsertRow]
  rfl

/-! ## C1: scalar (notes) three-way classification -/

/-- **C1**: `detectPlaceNotesChange` classifies by comparing the hashes of
local and remote against the stored base fingerprint (an absent base row
and null notes both yield `none`): no decision when all three hashes
agree; `keep_local` (`local_change`) when only local moved;
`take_remote` (`remote_change`) when only remote moved; `conflict` with
`local_wins` when both moved to different values; `synchronized` with
`already_synced` when both moved to the same value. -/
theorem C1_notes_classification (db : Db) (placeId : Nat)
    (localNotes remoteNotes : Option String) (b lh rh : Option String)
    (hb : LastRemoteStateRepository.getPlaceNotes db placeId = b)
    (hl : ChangeDetector.hash db.H localNotes = lh)
    (hr : ChangeDetector.hash db.H remoteNotes = rh) :
    (lh = b ∧ rh = b →
      ChangeDetector.detectPlaceNotesChange db placeId localNotes remoteNotes = none) ∧
    (lh ≠ b ∧ rh = b →
      ChangeDetector.detectPlaceNotesChange db placeId localNotes remoteNotes =
        some { type := "local_change", entity := "place_notes", placeId := placeId,
               localValue := localNotes, remoteValue := remoteNotes, baseValue := b,
               resolution := "keep_local" }) ∧
    (rh ≠ b ∧ lh = b →
      ChangeDetector.detectPlaceNotesChange db placeId localNotes remoteNotes =
        some { type := "remote_change", entity := "place_notes", placeId := placeId,
               localValue := localNotes, remoteValue := remoteNotes, baseValue := b,
               resolution := "take_remote" }) ∧
    (lh ≠ b ∧ rh ≠ b ∧ lh ≠ rh →
      ChangeDetector.detectPlaceNotesChange db placeId localNotes remoteNotes =
        some { type := "conflict", entity := "place_notes", placeId := placeId,
               localValue := localNotes, remoteValue := remoteNotes, baseValue := b,
               resolution := "local_wins" }) ∧
    (lh = rh ∧ lh ≠ b →
      ChangeDetector.detectPlaceNotesChange db placeId localNotes remoteNotes =
        some { type := "synchronized", entity := "place_notes", placeId := placeId,
               localValue := localNotes, remoteValue := remoteNotes, baseValue := b,
               resolution := "already_synced" }) := by
  subst hb hl hr
  refine ⟨fun h => ?_, fun h => ?_, fun h => ?_, fun h => ?_, fun h => ?_⟩ <;>
    obtain ⟨h1, h2⟩ := h <;>
    simp only [ChangeDetector.detectPlaceNotesChange]
  · rw [if_pos ⟨h1.trans h2.symm, h1⟩]
  · rw [if_neg (by intro hc; exact h1 hc.2), if_pos ⟨h1, h2⟩]
  · rw [if_neg (by intro hc; exact h1 (hc.1 ▸ hc.2)),
      if_neg (by intro hc; exact hc.1 h2), if_pos ⟨h1, h2⟩]
  · obtain ⟨h2, h3⟩ := h2
    rw [if_neg (by intro hc; exact h3 hc.1), if_neg (by intro hc; exact h2 hc.2),
      if_neg (by intro hc; exact h1 hc.2), if_pos ⟨h1, h2, h3⟩]
  · rw [if_neg (by intro hc; exact h2 hc.2),
      if_neg (by intro hc; exact h2 (h1.trans hc.2)),
      if_neg (by intro hc; exact hc.1 (h1.symm.trans hc.2)),
      if_neg (by intro hc; exact hc.2.2 h1), if_pos ⟨h1, h2⟩]

/-- A minimal concrete state used by the witnesses (the hash is
instantiated with an injective placeholder digest). -/
def wDb : Db :=
  { H := fun s => s,
    places := [{ id := 1, google_place_id := "g1", name := "P1", notes := some "a",
                 notes_hash := some "a", is_deleted := false, deleted_locally := false }],
    lists := [{ id := 1, name := "A" }],
    placeLists := [{ place_id := 1, list_id := 1, deleted_locally := false }],
    baseNotes := [],
    baseAssoc := [],
    pendingOps := [],
    nextOpId := 1, now := 0, syncLog := [], nextSyncId := 1 }

theorem C1_notes_classification_witness :
    ChangeDetector.detectPlaceNotesChange wDb 1 (some "a") none =
      some { type := "local_change", entity := "place_notes", placeId := 1,
             localValue := some "a", remoteValue := none, baseValue := none,
             resolution := "keep_local" } :=
  (C1_notes_classification wDb 1 (some "a") none none (some "a") none
      rfl rfl rfl).2.1 ⟨by decide, rfl⟩

/-! ## C2: membership classification -/

/-- **C2**: `detectPlaceListChange` over the booleans
`(existedInBase, existsLocal, existsRemote)`: no decision when all three
agree; `push_add` for `(false, true, false)`; `push_remove` for
`(true, false, true)`; `add_locally` for `(false, false, true)`;
`remove_locally` for `(true, true, false)`; and no input ever produces a
decision of type `conflict` — the two conflict guards repeat the two
remove cases and are unreachable. -/
theorem C2_membership_classification (db : Db) (placeId listId : Nat)
    (el er eib : Bool)
    (hbase : decide (LastRemoteStateRepository.getPlaceListAssociation db placeId listId
        = some "exists") = eib) :
    (el = er ∧ el = eib →
      ChangeDetector.detectPlaceListChange db placeId listId el er = none) ∧
    (eib = false ∧ el = true ∧ er = false →
      ChangeDetector.detectPlaceListChange db placeId listId el er =
        some { type := "local_add", entity := "place_list", placeId := placeId,
               listId := listId, existsLocal := el, existsRemote := er,
               existedInBase := eib, resolution := "push_add" }) ∧
    (eib = true ∧ el = false ∧ er = true →
      ChangeDetector.detectPlaceListChange db placeId listId el er =
        some { type := "local_remove", entity := "place_list", placeId := placeId,
               listId := listId, existsLocal := el, existsRemote := er,
               existedInBase := eib, resolution := "push_remove" }) ∧
    (eib = false ∧ el = false ∧ er = true →
      ChangeDetector.detectPlaceListChange db placeId listId el er =
        some { type := "remote_add", entity := "place_list", placeId := placeId,
               listId := listId, existsLocal := el, existsRemote := er,
               existedInBase := eib, resolution := "add_locally" }) ∧
    (eib = true ∧ el = true ∧ er = false →
      ChangeDetector.detectPlaceListChange db placeId listId el er =
        some { type := "remote_remove", entity := "place_list", placeId := placeId,
               listId := listId, existsLocal := el, existsRemote := er,
               existedInBase := eib, resolution := "remove_locally" }) ∧
    (∀ c, ChangeDetector.detectPlaceListChange db placeId listId el er = some c →
      c.type ≠ "conflict") := by
  have hdec :
      (decide (LastRemoteStateRepository.getPlaceListAssociation db placeId listId
        = some "exists") : Bool) = eib := hbase
  cases el <;> cases er <;>
    rcases heib : eib with _ | _ <;>
    simp_all [ChangeDetector.detectPlaceListChange]

theorem C2_membership_classification_witness :
    ChangeDetector.detectPlaceListChange wDb 1 1 true false =
      some { type := "local_add", entity := "place_list", placeId := 1,
             listId := 1, existsLocal := true, existsRemote := false,
             existedInBase := false, resolution := "push_add" } :=
  (C2_membership_classification wDb 1 1 true false false rfl).2.1 ⟨rfl, rfl, rfl⟩

/-! ## C3: quick sync and remote absence -/

/-- State for the quick-sync deletion scenario: place 1 is a member of
list `A` locally, the base store remembers the membership as `exists`,
and the bounded (first-50) quick-sync snapshot of `A` happens not to
contain the place. -/
def c3Db : Db :=
  { H := fun s => s,
    places := [{ id := 1, google_place_id := "g1", name := "P1", notes := none,
                 notes_hash := none, is_deleted := false, deleted_locally := false }],
    lists := [{ id := 1, name := "A" }],
    placeLists := [{ place_id := 1, list_id := 1, deleted_locally := false }],
    baseNotes := [],
    baseAssoc := [((1, 1), "exists")],
    pendingOps := [],
    nextOpId := 1, now := 0, syncLog := [], nextSyncId := 1 }

/-- **C3** (failing input): the claim says quick (incremental) sync must
not treat absence from the bounded snapshot as a remote deletion, and the
orchestrator even passes an `isIncremental` flag with that intent — but
`detectChangesForList` has no such parameter, so quick mode classifies the
mere absence of locally-present, base-known place 1 from the truncated
snapshot as `remote_remove` / `remove_locally`, and the quick-sync run
deletes the local association. -/
theorem C3_quick_sync_treats_absence_as_deletion :
    ChangeDetector.detectChangesForList c3Db "A" [] =
      Except.ok
        { notesChanges := [],
          associationChanges :=
            [{ type := "remote_remove", entity := "place_list", placeId := 1,
               listId := 1, existsLocal := true, existsRemote := false,
               existedInBase := true, resolution := "remove_locally" }],
          conflicts := [] } ∧
    ((SyncOrchestrator.quickSync false c3Db [("A", some [])]).2).placeLists = [] ∧
    ((SyncOrchestrator.quickSync false c3Db [("A", some [])]).2).baseAssoc =
      [((1, 1), "not_exists")] := by
  refine ⟨rfl, rfl, rfl⟩

/-! ## C4: PULL_VALIDATION aborts the whole run -/

/-- Shared abort behaviour of `syncRun`: one failed list outcome makes the
run complete its log row as `failed`, throw, and leave every store
untouched. -/
theorem syncRun_abort (syncType : String) (dryRun : Bool) (db : Db)
    (outcomes : List (String × Option (List RemotePlace)))
    (name : String) (hmem : (name, (none : Option (List RemotePlace))) ∈ outcomes) :
    (SyncOrchestrator.syncRun syncType dryRun db outcomes).1 =
      Except.error "Pull phase failed: lists could not be scraped" ∧
    ((SyncOrchestrator.syncRun syncType dryRun db outcomes).2).places = db.places ∧
    ((SyncOrchestrator.syncRun syncType dryRun db outcomes).2).lists = db.lists ∧
    ((SyncOrchestrator.syncRun syncType dryRun db outcomes).2).placeLists = db.placeLists ∧
    ((SyncOrchestrator.syncRun syncType dryRun db outcomes).2).baseNotes = db.baseNotes ∧
    ((SyncOrchestrator.syncRun syncType dryRun db outcomes).2).baseAssoc = db.baseAssoc ∧
    ((SyncOrchestrator.syncRun syncType dryRun db outcomes).2).pendingOps = db.pendingOps ∧
    ((SyncOrchestrator.syncRun syncType dryRun db outcomes).2).nextOpId = db.nextOpId ∧
    (∃ e ∈ ((SyncOrchestrator.syncRun syncType dryRun db outcomes).2).syncLog,
      e.id = db.nextSyncId ∧ e.sync_type = syncType ∧ e.status = "failed" ∧
      e.completed = true) := by
  have hf : (name, (none : Option (List RemotePlace))) ∈
      outcomes.filter (fun o => o.2.isNone) :=
    List.mem_filter.mpr ⟨hmem, rfl⟩
  have hpos : 0 < ((outcomes.filter (fun o => o.2.isNone)).map (fun o => o.1)).length := by
    rw [List.length_map]
    exact List.length_pos.mpr (List.ne_nil_of_mem hf)
  simp only [SyncOrchestrator.syncRun]
  rw [if_pos hpos]
  refine ⟨rfl, rfl, rfl, rfl, rfl, rfl, rfl, rfl, ?_⟩
  refine ⟨_, List.mem_map_of_mem _ (List.mem_map_of_mem _
    (List.mem_append_right _ (List.mem_cons_self _ _))), ?_⟩
  simp [Database.startSync, Database.completeSync]

/-- **C4**: for every run, quick or deep, a single failed list at the
PULL phase makes the PULL_VALIDATION gate abort: the sync-log row is
completed with status `failed`, the caller receives an error, and the
local store, base store and pending-operation queue are all left exactly
as they were (no merger decision is produced or applied). -/
theorem C4_pull_validation_abort (dryRun : Bool) (db : Db)
    (outcomes : List (String × Option (List RemotePlace)))
    (name : String) (hmem : (name, (none : Option (List RemotePlace))) ∈ outcomes) :
    ((SyncOrchestrator.quickSync dryRun db outcomes).1 =
        Except.error "Pull phase failed: lists could not be scraped" ∧
      ((SyncOrchestrator.quickSync dryRun db outcomes).2).places = db.places ∧
      ((SyncOrchestrator.quickSync dryRun db outcomes).2).lists = db.lists ∧
      ((SyncOrchestrator.quickSync dryRun db outcomes).2).placeLists = db.placeLists ∧
      ((SyncOrchestrator.quickSync dryRun db outcomes).2).baseNotes = db.baseNotes ∧
      ((SyncOrchestrator.quickSync dryRun db outcomes).2).baseAssoc = db.baseAssoc ∧
      ((SyncOrchestrator.quickSync dryRun db outcomes).2).pendingOps = db.pendingOps ∧
      (∃ e ∈ ((SyncOrchestrator.quickSync dryRun db outcomes).2).syncLog,
        e.id = db.nextSyncId ∧ e.sync_type = "quick" ∧ e.status = "failed" ∧
        e.completed = true)) ∧
    ((SyncOrchestrator.deepSync dryRun db outcomes).1 =
        Except.error "Pull phase failed: lists could not be scraped" ∧
      ((SyncOrchestrator.deepSync dryRun db outcomes).2).places = db.places ∧
      ((SyncOrchestrator.deepSync dryRun db outcomes).2).lists = db.lists ∧
      ((SyncOrchestrator.deepSync dryRun db outcomes).2).placeLists = db.placeLists ∧
      ((SyncOrchestrator.deepSync dryRun db outcomes).2).baseNotes = db.baseNotes ∧
      ((SyncOrchestrator.deepSync dryRun db outcomes).2).baseAssoc = db.baseAssoc ∧
      ((SyncOrchestrator.deepSync dryRun db outcomes).2).pendingOps = db.pendingOps ∧
      (∃ e ∈ ((SyncOrchestrator.deepSync dryRun db outcomes).2).syncLog,
        e.id = db.nextSyncId ∧ e.sync_type = "deep" ∧ e.status = "failed" ∧
        e.completed = true)) := by
  obtain ⟨q1, q2, q3, q4, q5, q6, q7, _, q9⟩ :=
    syncRun_abort "quick" dryRun db outcomes name hmem
  obtain ⟨d1, d2, d3, d4, d5, d6, d7, _, d9⟩ :=
    syncRun_abort "deep" dryRun db outcomes name hmem
  exact ⟨⟨q1, q2, q3, q4, q5, q6, q7, q9⟩, ⟨d1, d2, d3, d4, d5, d6, d7, d9⟩⟩

theorem C4_pull_validation_abort_witness :
    ((SyncOrchestrator.quickSync false wDb [("A", some []), ("B", none)]).2).pendingOps
        = wDb.pendingOps ∧
    (SyncOrchestrator.deepSync false wDb [("A", some []), ("B", none)]).1 =
      Except.error "Pull phase failed: lists could not be scraped" :=
  ⟨(C4_pull_validation_abort false wDb [("A", some []), ("B", none)] "B"
      (by simp)).1.2.2.2.2.2.2.1,
   (C4_pull_validation_abort false wDb [("A", some []), ("B", none)] "B"
      (by simp)).2.1⟩

/-! ## C5: local-wins conflict contract for notes -/

/-- State for the conflict counterexample: place 1 has null notes locally
(the user cleared them), the base fingerprint is `b0`, and the remote was
scraped with different notes — a genuine conflict whose local value is
falsy. -/
def c5Db : Db :=
  { H := fun s => s,
    places := [{ id := 1, google_place_id := "g1", name := "P1", notes := none,
                 notes_hash := none, is_deleted := false, deleted_locally := false }],
    lists := [], placeLists := [], baseNotes := [(1, "b0")], baseAssoc := [],
    pendingOps := [], nextOpId := 1, now := 0, syncLog := [], nextSyncId := 1 }

/-- The conflict decision the detector emits for place 1 of `c5Db`. -/
def c5Conflict : NotesChange :=
  { type := "conflict", entity := "place_notes", placeId := 1,
    localValue := none, remoteValue := some "y", baseValue := some "b0",
    resolution := "local_wins" }

/-- **C5** (counterexample): the claim says applying a conflict decision
sets the base fingerprint to the hash of the local value.  For a conflict
whose local value is null (or empty), `hashNotes` returns null, the
`savePlaceNotes` upsert throws the `state_hash NOT NULL` constraint
error, and the base keeps its old digest `b0` — it is not set to the
local hash (`None`), and the application reports an error. -/
theorem C5_counterexample :
    ChangeDetector.detectPlaceNotesChange c5Db 1 none (some "y") = some c5Conflict ∧
    PlacesRepository.hashNotes c5Db.H c5Conflict.localValue = none ∧
    LastRemoteStateRepository.getPlaceNotes
      (Merger.applyNotesChange c5Db c5Conflict).1 1 = some "b0" ∧
    ((Merger.applyNotesChange c5Db c5Conflict).2).isSome = true :=
  ⟨rfl, rfl, rfl, rfl⟩

/-- **C5** (amended): every scalar (notes) conflict decision carries the
default resolution `local_wins`, and applying it through the merger
leaves the places table unchanged and enqueues no pending operation.
When the local value has a non-null fingerprint (a non-empty string) the
base store receives exactly that fingerprint and no error is raised;
when the local fingerprint is null (local notes null or empty) the
`state_hash NOT NULL` constraint fires, the decision is skipped with an
error, and the whole state — the base fingerprint included — is left as
it was. -/
theorem C5_conflict_local_wins (db : Db) (placeId : Nat)
    (localNotes remoteNotes : Option String) (c : NotesChange)
    (hdet : ChangeDetector.detectPlaceNotesChange db placeId localNotes remoteNotes
      = some c)
    (htype : c.type = "conflict")
    (hfound : (PlacesRepository.findById db c.placeId).isSome = true) :
    c.resolution = "local_wins" ∧
    (Merger.applyNotesChange db c).1.places = db.places ∧
    (Merger.applyNotesChange db c).1.pendingOps = db.pendingOps ∧
    (∀ h, PlacesRepository.hashNotes db.H c.localValue = some h →
      LastRemoteStateRepository.getPlaceNotes (Merger.applyNotesChange db c).1
          c.placeId = some h ∧
        (Merger.applyNotesChange db c).2 = none) ∧
    (PlacesRepository.hashNotes db.H c.localValue = none →
      (Merger.applyNotesChange db c).1 = db ∧
        ((Merger.applyNotesChange db c).2).isSome = true) := by
  have hc : c =
      { type := "conflict", entity := "place_notes", placeId := placeId,
        localValue := localNotes, remoteValue := remoteNotes,
        baseValue := LastRemoteStateRepository.getPlaceNotes db placeId,
        resolution := "local_wins" } := by
    simp only [ChangeDetector.detectPlaceNotesChange] at hdet
    split_ifs at hdet <;>
      first
        | (rw [Option.some_inj] at hdet; subst hdet; simp_all)
        | simp_all
  have hres2 : c.resolution = "local_wins" := by rw [hc]
  have hcl : c.localValue = localNotes := by rw [hc]
  have hcp : c.placeId = placeId := by rw [hc]
  rw [hcl, hcp]
  rw [hcp] at hfound
  obtain ⟨p, hp0⟩ := Option.isSome_iff_exists.mp hfound
  have happ : Merger.applyNotesChange db c =
      Merger.stepResult db (LastRemoteStateRepository.savePlaceNotes db placeId
        (PlacesRepository.hashNotes db.H localNotes)) := by
    simp only [Merger.applyNotesChange, hcp, hcl, hres2, hp0]
    split_ifs <;> first | rfl | simp_all
  rw [happ]
  rcases hh : PlacesRepository.hashNotes db.H localNotes with _ | h
  · refine ⟨hres2, rfl, rfl, ?_, ?_⟩
    · intro h2 hx
      exact Option.noConfusion hx
    · intro _
      exact ⟨rfl, rfl⟩
  · refine ⟨hres2, rfl, rfl, ?_, ?_⟩
    · intro h2 hx
      injection hx with hh2
      subst hh2
      exact ⟨getPlaceNotes_upsert db placeId _, rfl⟩
    · intro hx
      exact Option.noConfusion hx

theorem C5_conflict_local_wins_witness :
    LastRemoteStateRepository.getPlaceNotes
        (Merger.applyNotesChange wDb
          { type := "conflict", entity := "place_notes", placeId := 1,
            localValue := some "x", remoteValue := some "y", baseValue := none,
            resolution := "local_wins" }).1 1 = some "x" := by
  have h := ((C5_conflict_local_wins wDb 1 (some "x") (some "y") _
    rfl rfl rfl).2.2.2.1 "x" rfl).1
  simpa using h

/-! ## C6: retry bookkeeping and the terminal failed state -/

/-- **C6**: a `retryOperation` call rewrites the targeted row so that
`retry_count` grows by exactly one and `next_retry_at` becomes
`now + 5 minutes × the new retry_count`; the row stays `pending` while
the new count is below `max_retries` (3 by default for rows enqueued by
`addPendingOperation`) and becomes `failed` once it reaches it — and a
`failed` row is never served by `getPendingOperations` again, so the
dispatch loop can neither resurrect it nor advance its `next_retry_at`
any further. -/
theorem C6_retry_backoff (now : Nat) (msg : String) (db : Db)
    (o : PendingOperation) (ho : o ∈ db.pendingOps) :
    Database.retryStep now msg o ∈
      (Database.retryOperation now db o.id msg).pendingOps ∧
    (Database.retryStep now msg o).retry_count = o.retry_count + 1 ∧
    (Database.retryStep now msg o).next_retry_at =
      some (now + 5 * (o.retry_count + 1)) ∧
    (o.retry_count + 1 < o.max_retries →
      (Database.retryStep now msg o).status = "pending") ∧
    (o.max_retries ≤ o.retry_count + 1 →
      (Database.retryStep now msg o).status = "failed") ∧
    (∀ p : PendingOperation, p.status = "failed" →
      ∀ now2 db2, p ∉ Database.getPendingOperations now2 db2) ∧
    (∀ dbx opType payload, ∃ op,
      (Database.addPendingOperation dbx opType payload).pendingOps =
        dbx.pendingOps ++ [op] ∧ op.max_retries = 3 ∧ op.status = "pending") := by
  refine ⟨?_, rfl, rfl, ?_, ?_, ?_, ?_⟩
  · unfold Database.retryOperation
    refine List.mem_map.mpr ⟨o, ho, ?_⟩
    simp
  · intro h
    simp only [Database.retryStep]
    rw [if_neg (Nat.not_le.mpr h)]
  · intro h
    simp only [Database.retryStep]
    rw [if_pos h]
  · intro p hp now2 db2 hmem
    have := (List.mem_filter.mp
      ((List.mem_insertionSort Database.createdLe).mp hmem)).2
    simp [Database.readyFilter, hp] at this
  · intro dbx opType payload
    exact ⟨_, rfl, rfl, rfl⟩

theorem C6_retry_backoff_witness :
    Database.retryStep 7 "boom"
        { id := 1, operation_type := "add_place_to_list", payload := (1, 1),
          status := "pending", retry_count := 0, max_retries := 3,
          next_retry_at := none, error_message := none, created_at := 0 } ∈
      (Database.retryOperation 7
        { wDb with pendingOps :=
            [{ id := 1, operation_type := "add_place_to_list", payload := (1, 1),
               status := "pending", retry_count := 0, max_retries := 3,
               next_retry_at := none, error_message := none, created_at := 0 }] }
        1 "boom").pendingOps :=
  (C6_retry_backoff 7 "boom" _ _ (List.mem_cons_self _ _)).1

/-! ## C7: convergence after take_remote -/

theorem find?_updateNotes_aux (H : String → String) (pid : Nat) (v : Option String) :
    ∀ l : List Place,
      (l.map (fun p => if p.id = pid then
          { p with notes := v, notes_hash := PlacesRepository.hashNotes H v } else p)).find?
        (fun p => decide (p.id = pid)) =
      (l.find? (fun p => decide (p.id = pid))).map
        (fun p => { p with notes := v, notes_hash := PlacesRepository.hashNotes H v })
  | [] => rfl
  | a :: t => by
    by_cases ha : a.id = pid
    · simp [List.find?, ha]
    · simp [List.find?, ha, find?_updateNotes_aux H pid v t]

theorem findById_updateNotes (db : Db) (pid : Nat) (v : Option String) :
    PlacesRepository.findById (PlacesRepository.updateNotes db pid v) pid =
      (PlacesRepository.findById db pid).map
        (fun p => { p with notes := v, notes_hash := PlacesRepository.hashNotes db.H v }) := by
  unfold PlacesRepository.findById PlacesRepository.updateNotes
  exact find?_updateNotes_aux db.H pid v db.places

/-- `findById` only reads the places table, so replacing the base store
leaves it unchanged. -/
theorem findById_set_baseNotes (db : Db) (bn : List (Nat × String)) (pid : Nat) :
    PlacesRepository.findById { db with baseNotes := bn } pid =
      PlacesRepository.findById db pid := rfl

/-- Re-detection of a place whose local and remote inputs are the same
value `v`: the detector returns no decision when the hash of `v` equals
the stored base fingerprint, and a `synchronized` / `already_synced`
decision when it differs.  It never returns a `take_remote`. -/
theorem detect_equal_inputs (db2 : Db) (pid : Nat) (v : Option String) :
    (ChangeDetector.hash db2.H v = LastRemoteStateRepository.getPlaceNotes db2 pid →
      ChangeDetector.detectPlaceNotesChange db2 pid v v = none) ∧
    (ChangeDetector.hash db2.H v ≠ LastRemoteStateRepository.getPlaceNotes db2 pid →
      ChangeDetector.detectPlaceNotesChange db2 pid v v =
        some { type := "synchronized", entity := "place_notes", placeId := pid, localValue := v, remoteValue := v, baseValue := LastRemoteStateRepository.getPlaceNotes db2 pid, resolution := "already_synced" }) := by
  constructor
  · intro h
    simp only [ChangeDetector.detectPlaceNotesChange]
    split_ifs with c1 c2 c3 c4 c5 <;> first | rfl | simp_all
  · intro h
    simp only [ChangeDetector.detectPlaceNotesChange]
    split_ifs with c1 c2 c3 c4 c5 <;> first | rfl | simp_all

/-- State for the take_remote convergence scenario: place 1 with null
notes, no base fingerprint. -/
def c7Db : Db :=
  { H := fun s => s,
    places := [{ id := 1, google_place_id := "g1", name := "P1", notes := none,
                 notes_hash := none, is_deleted := false, deleted_locally := false }],
    lists := [], placeLists := [], baseNotes := [], baseAssoc := [],
    pendingOps := [], nextOpId := 1, now := 0, syncLog := [], nextSyncId := 1 }

/-- The `take_remote` decision the detector emits for place 1 of `c7Db`
with remote notes `"b"`. -/
def c7TR : NotesChange :=
  { type := "remote_change", entity := "place_notes", placeId := 1,
    localValue := none, remoteValue := some "b", baseValue := none,
    resolution := "take_remote" }

/-- **C7** (counterexample): the claim says that after applying a
`take_remote` decision, re-running `detectPlaceNotesChange` with the same
remote input yields a decision with resolution `already_synced`.  In fact
the detector emits a genuine `take_remote` for place 1 of `c7Db`, the
merger overwrites local notes and the base fingerprint with the remote
value — and re-running detection then returns *no* decision at all (the
stable-state branch), not an `already_synced` decision. -/
theorem C7_counterexample :
    ChangeDetector.detectPlaceNotesChange c7Db 1 none (some "b") = some c7TR ∧
    (PlacesRepository.findById (Merger.applyNotesChange c7Db c7TR).1 1).map
      Place.notes = some (some "b") ∧
    ChangeDetector.detectPlaceNotesChange (Merger.applyNotesChange c7Db c7TR).1 1
      (some "b") (some "b") = none :=
  ⟨rfl, rfl, rfl⟩

/-- **C7** (amended): after applying a detector-produced `take_remote`
decision through the merger, re-running `detectPlaceNotesChange` with the
updated local value and the same remote input never yields another
`take_remote`.  The local overwrite always persists; for a
non-empty-string remote value the base write succeeds and re-detection
yields no decision at all; for a null or empty-string remote value the
base write throws the `state_hash NOT NULL` constraint error, the base
keeps its pre-merge digest (which a genuine `take_remote` required to
differ from the remote hash), and re-detection yields an
`already_synced` decision. -/
theorem C7_take_remote_convergence (db : Db) (placeId : Nat)
    (localNotes remoteNotes : Option String) (c : NotesChange)
    (hdet : ChangeDetector.detectPlaceNotesChange db placeId localNotes remoteNotes
      = some c)
    (hres : c.resolution = "take_remote")
    (hfound : (PlacesRepository.findById db c.placeId).isSome = true) :
    (∀ p2, PlacesRepository.findById (Merger.applyNotesChange db c).1 c.placeId
      = some p2 → p2.notes = c.remoteValue) ∧
    (∀ d, ChangeDetector.detectPlaceNotesChange (Merger.applyNotesChange db c).1
      c.placeId c.remoteValue c.remoteValue = some d →
      d.resolution ≠ "take_remote") ∧
    (∀ s, c.remoteValue = some s → s ≠ "" →
      ChangeDetector.detectPlaceNotesChange (Merger.applyNotesChange db c).1
        c.placeId c.remoteValue c.remoteValue = none ∧
      (Merger.applyNotesChange db c).2 = none) ∧
    ((c.remoteValue = none ∨ c.remoteValue = some "") →
      (∃ d, ChangeDetector.detectPlaceNotesChange (Merger.applyNotesChange db c).1
        c.placeId c.remoteValue c.remoteValue = some d ∧
        d.resolution = "already_synced") ∧
      ((Merger.applyNotesChange db c).2).isSome = true) := by
  have hkey : c =
      { type := "remote_change", entity := "place_notes", placeId := placeId,
        localValue := localNotes, remoteValue := remoteNotes,
        baseValue := LastRemoteStateRepository.getPlaceNotes db placeId,
        resolution := "take_remote" } ∧
      ChangeDetector.hash db.H remoteNotes ≠
        LastRemoteStateRepository.getPlaceNotes db placeId := by
    simp only [ChangeDetector.detectPlaceNotesChange] at hdet
    split_ifs at hdet with h1 h2 h3 h4 h5 <;>
      first
        | (rw [Option.some_inj] at hdet; subst hdet; simp_all)
        | simp_all
  obtain ⟨hc, hrb⟩ := hkey
  have hcp : c.placeId = placeId := by rw [hc]
  have hcr : c.remoteValue = remoteNotes := by rw [hc]
  rw [hcp, hcr]
  rw [hcp] at hfound
  obtain ⟨p, hp0⟩ := Option.isSome_iff_exists.mp hfound
  have happ : Merger.applyNotesChange db c =
      Merger.stepResult (PlacesRepository.updateNotes db placeId remoteNotes)
        (LastRemoteStateRepository.savePlaceNotes
          (PlacesRepository.updateNotes db placeId remoteNotes) placeId
          (PlacesRepository.hashNotes db.H remoteNotes)) := by
    simp only [Merger.applyNotesChange, hcp, hcr, hres, hp0]
    rw [if_neg (by decide), if_pos trivial]
    rfl
  rw [happ]
  have hU := findById_updateNotes db placeId remoteNotes
  rcases remoteNotes with _ | s
  · -- remote null: hashNotes is null, the base write throws, base unchanged
    have hsync := (detect_equal_inputs
      (PlacesRepository.updateNotes db placeId none) placeId none).2 hrb
    refine ⟨?_, ?_, ?_, ?_⟩
    · intro p2 hp2
      have hp2b : PlacesRepository.findById
          (PlacesRepository.updateNotes db placeId none) placeId = some p2 := hp2
      rw [hU, hp0] at hp2b
      simp only [Option.map_some'] at hp2b
      injection hp2b with h
      rw [← h]
    · intro d hd
      have hd2 : ChangeDetector.detectPlaceNotesChange
          (PlacesRepository.updateNotes db placeId none) placeId none none
          = some d := hd
      rw [hsync] at hd2
      injection hd2 with h
      rw [← h]
      simp
    · intro s2 hs2
      exact Option.noConfusion hs2
    · intro _
      exact ⟨⟨_, hsync, rfl⟩, rfl⟩
  · by_cases hs : s = ""
    · subst hs
      -- remote empty string: hashNotes is null again, the base write throws
      have hsync := (detect_equal_inputs
        (PlacesRepository.updateNotes db placeId (some "")) placeId (some "")).2 hrb
      refine ⟨?_, ?_, ?_, ?_⟩
      · intro p2 hp2
        have hp2b : PlacesRepository.findById
            (PlacesRepository.updateNotes db placeId (some "")) placeId
            = some p2 := hp2
        rw [hU, hp0] at hp2b
        simp only [Option.map_some'] at hp2b
        injection hp2b with h
        rw [← h]
      · intro d hd
        have hd2 : ChangeDetector.detectPlaceNotesChange
            (PlacesRepository.updateNotes db placeId (some "")) placeId (some "")
            (some "") = some d := hd
        rw [hsync] at hd2
        injection hd2 with h
        rw [← h]
        simp
      · intro s2 hs2 hne
        injection hs2 with h
        exact absurd h.symm hne
      · intro _
        exact ⟨⟨_, hsync, rfl⟩, rfl⟩
    · -- remote a non-empty string: the base write succeeds
      have hhs : PlacesRepository.hashNotes db.H (some s) = some (db.H s) := by
        simp [PlacesRepository.hashNotes, hs]
      rw [hhs]
      have hnone := (detect_equal_inputs
        { PlacesRepository.updateNotes db placeId (some s) with
          baseNotes := upsertRow
            (PlacesRepository.updateNotes db placeId (some s)).baseNotes placeId
            (db.H s) } placeId (some s)).1
        (getPlaceNotes_upsert
          (PlacesRepository.updateNotes db placeId (some s)) placeId (db.H s)).symm
      refine ⟨?_, ?_, ?_, ?_⟩
      · intro p2 hp2
        have hp2b : PlacesRepository.findById
            (PlacesRepository.updateNotes db placeId (some s)) placeId
            = some p2 := hp2
        rw [hU, hp0] at hp2b
        simp only [Option.map_some'] at hp2b
        injection hp2b with h
        rw [← h]
      · intro d hd
        have hd2 : ChangeDetector.detectPlaceNotesChange
            { PlacesRepository.updateNotes db placeId (some s) with
              baseNotes := upsertRow
                (PlacesRepository.updateNotes db placeId (some s)).baseNotes placeId
                (db.H s) } placeId (some s) (some s) = some d := hd
        rw [hnone] at hd2
        exact Option.noConfusion hd2
      · intro s2 hs2 hne
        injection hs2 with h
        subst h
        exact ⟨hnone, rfl⟩
      · intro hor
        rcases hor with hor | hor
        · exact Option.noConfusion hor
        · injection hor with h
          exact absurd h hs

theorem C7_take_remote_convergence_witness :
    ChangeDetector.detectPlaceNotesChange (Merger.applyNotesChange c7Db c7TR).1 1
      (some "b") (some "b") = none :=
  ((C7_take_remote_convergence c7Db 1 none (some "b") c7TR rfl rfl rfl).2.2.1 "b"
    rfl (by decide)).1

/-! ## C8: per-decision error handling in applyChanges -/

theorem runBatch_acc {σ α : Type} (f : σ → α → Except String σ) (isC : α → Bool) :
    ∀ (l : List α) (st : σ) (a c : Nat),
      (Merger.runBatch f isC (st, a, c) l).1 = (Merger.runBatch f isC (st, 0, 0) l).1 ∧
      (Merger.runBatch f isC (st, a, c) l).2.1 =
        (Merger.runBatch f isC (st, 0, 0) l).2.1 + a ∧
      (Merger.runBatch f isC (st, a, c) l).2.2 =
        (Merger.runBatch f isC (st, 0, 0) l).2.2 + c := by
  intro l
  induction l with
  | nil =>
    intro st a c
    exact ⟨rfl, by simp [Merger.runBatch], by simp [Merger.runBatch]⟩
  | cons ch rest ih =>
    intro st a c
    rcases hf : f st ch with e | st2 <;> simp only [Merger.runBatch, hf]
    · exact ih st a c
    · obtain ⟨i1, i2, i3⟩ := ih st2 (a + 1) (if isC ch then c + 1 else c)
      obtain ⟨j1, j2, j3⟩ := ih st2 (0 + 1) (if isC ch then 0 + 1 else 0)
      have hcc : (if isC ch then c + 1 else c) = (if isC ch then 0 + 1 else 0) + c := by
        cases hc : isC ch <;> simp [hc] <;> omega
      exact ⟨i1.trans j1.symm, by omega, by omega⟩

theorem runBatch_acc_t {σ α : Type} (f : σ → α → Except String σ) (isC : α → Bool)
    (l : List α) (t : σ × Nat × Nat) :
    (Merger.runBatch f isC t l).1 = (Merger.runBatch f isC (t.1, 0, 0) l).1 ∧
    (Merger.runBatch f isC t l).2.1 =
      (Merger.runBatch f isC (t.1, 0, 0) l).2.1 + t.2.1 ∧
    (Merger.runBatch f isC t l).2.2 =
      (Merger.runBatch f isC (t.1, 0, 0) l).2.2 + t.2.2 := by
  have h := runBatch_acc f isC l t.1 t.2.1 t.2.2
  simpa using h

theorem runBatch_applied_le {σ α : Type} (f : σ → α → Except String σ) (isC : α → Bool) :
    ∀ (l : List α) (st : σ) (a c : Nat),
      (Merger.runBatch f isC (st, a, c) l).2.1 ≤ a + l.length := by
  intro l
  induction l with
  | nil =>
    intro st a c
    simp [Merger.runBatch]
  | cons ch rest ih =>
    intro st a c
    rcases hf : f st ch with e | st2 <;>
      simp only [Merger.runBatch, hf, List.length_cons]
    · have := ih st a c
      omega
    · have := ih st2 (a + 1) (if isC ch then c + 1 else c)
      omega

/-- **C8**: in the batch loop of `applyChanges` a decision whose
application throws is caught and skipped — the result is the same as
running the batch without it, so every remaining decision is still
processed — a decision whose application succeeds adds exactly one to the
`applied` counter, and `applied` never exceeds the number of decisions,
reporting only the successfully applied ones.  (The per-decision apply
functions are abstracted, since in the source any store call inside them
may throw.) -/
theorem C8_apply_changes_batch {σ : Type}
    (applyN : σ → NotesChange → Except String σ)
    (applyA : σ → AssociationChange → Except String σ)
    (st : σ) (n : NotesChange) (ns : List NotesChange)
    (a : AssociationChange) (as2 : List AssociationChange)
    (cf : List (Sum NotesChange AssociationChange)) :
    (∀ e, applyN st n = Except.error e →
      Merger.applyChangesF applyN applyA st
          { notesChanges := n :: ns, associationChanges := as2, conflicts := cf } =
        Merger.applyChangesF applyN applyA st
          { notesChanges := ns, associationChanges := as2, conflicts := cf }) ∧
    (∀ st2, applyN st n = Except.ok st2 →
      (Merger.applyChangesF applyN applyA st
          { notesChanges := n :: ns, associationChanges := as2, conflicts := cf }).1 =
        (Merger.applyChangesF applyN applyA st2
          { notesChanges := ns, associationChanges := as2, conflicts := cf }).1 ∧
      (Merger.applyChangesF applyN applyA st
          { notesChanges := n :: ns, associationChanges := as2, conflicts := cf }).2.1 =
        (Merger.applyChangesF applyN applyA st2
          { notesChanges := ns, associationChanges := as2, conflicts := cf }).2.1 + 1) ∧
    (∀ e, applyA st a = Except.error e →
      Merger.applyChangesF applyN applyA st
          { notesChanges := [], associationChanges := a :: as2, conflicts := cf } =
        Merger.applyChangesF applyN applyA st
          { notesChanges := [], associationChanges := as2, conflicts := cf }) ∧
    (∀ st2, applyA st a = Except.ok st2 →
      (Merger.applyChangesF applyN applyA st
          { notesChanges := [], associationChanges := a :: as2, conflicts := cf }).2.1 =
        (Merger.applyChangesF applyN applyA st2
          { notesChanges := [], associationChanges := as2, conflicts := cf }).2.1 + 1) ∧
    (Merger.applyChangesF applyN applyA st
        { notesChanges := ns, associationChanges := as2, conflicts := cf }).2.1 ≤
      ns.length + as2.length := by
  refine ⟨?_, ?_, ?_, ?_, ?_⟩
  · intro e he
    simp only [Merger.applyChangesF, Merger.runBatch, he]
  · intro st2 hok
    simp only [Merger.applyChangesF, Merger.runBatch, hok]
    obtain ⟨i1, i2, i3⟩ := runBatch_acc applyN (fun c => decide (c.type = "conflict")) ns
      st2 (0 + 1) (if decide (n.type = "conflict") = true then 0 + 1 else 0)
    obtain ⟨l1, l2, l3⟩ := runBatch_acc_t applyA (fun c => decide (c.type = "conflict")) as2
      (Merger.runBatch applyN (fun c => decide (c.type = "conflict"))
        (st2, 0 + 1, if decide (n.type = "conflict") = true then 0 + 1 else 0) ns)
    obtain ⟨r1, r2, r3⟩ := runBatch_acc_t applyA (fun c => decide (c.type = "conflict")) as2
      (Merger.runBatch applyN (fun c => decide (c.type = "conflict")) (st2, 0, 0) ns)
    constructor
    · rw [l1, r1, i1]
    · rw [l2, r2, i1, i2]
      omega
  · intro e he
    simp only [Merger.applyChangesF, Merger.runBatch, he]
  · intro st2 hok
    simp only [Merger.applyChangesF, Merger.runBatch, hok]
    obtain ⟨l1, l2, l3⟩ := runBatch_acc applyA (fun c => decide (c.type = "conflict")) as2
      st2 (0 + 1) (if decide (a.type = "conflict") = true then 0 + 1 else 0)
    omega
  · have h1 := runBatch_applied_le applyN (fun c => decide (c.type = "conflict")) ns st 0 0
    obtain ⟨l1, l2, l3⟩ := runBatch_acc_t applyA (fun c => decide (c.type = "conflict")) as2
      (Merger.runBatch applyN (fun c => decide (c.type = "conflict")) (st, 0, 0) ns)
    have h2 := runBatch_applied_le applyA (fun c => decide (c.type = "conflict")) as2
      (Merger.runBatch applyN (fun c => decide (c.type = "conflict")) (st, 0, 0) ns).1 0 0
    simp only [Merger.applyChangesF]
    omega

/-- Example decisions for the batch witness. -/
def c8N : NotesChange :=
  { type := "local_change", entity := "place_notes", placeId := 1,
    localValue := some "a", remoteValue := none, baseValue := none,
    resolution := "keep_local" }

/-- Example association decision for the batch witness. -/
def c8A : AssociationChange :=
  { type := "remote_add", entity := "place_list", placeId := 1, listId := 1,
    existsLocal := false, existsRemote := true, existedInBase := false,
    resolution := "add_locally" }

theorem C8_apply_changes_batch_witness :
    Merger.applyChangesF (fun (_ : Nat) (_ : NotesChange) => Except.error "store down")
        (fun (s : Nat) (_ : AssociationChange) => Except.ok (s + 1)) 0
        { notesChanges := [c8N], associationChanges := [c8A], conflicts := [] } =
      Merger.applyChangesF (fun (_ : Nat) (_ : NotesChange) => Except.error "store down")
        (fun (s : Nat) (_ : AssociationChange) => Except.ok (s + 1)) 0
        { notesChanges := [], associationChanges := [c8A], conflicts := [] } :=
  (C8_apply_changes_batch
      (fun (_ : Nat) (_ : NotesChange) => Except.error "store down")
      (fun (s : Nat) (_ : AssociationChange) => Except.ok (s + 1)) 0
      c8N [] c8A [c8A] []).1 "store down" rfl

/-! ## C9: the ready set of the pending-operation queue -/

theorem readyFilter_eq (now : Nat) (o : PendingOperation) :
    Database.readyFilter now o = true ↔
      (o.status = "pending" ∧
        (o.next_retry_at = none ∨ ∃ t, o.next_retry_at = some t ∧ t ≤ now)) := by
  unfold Database.readyFilter
  rcases h : o.next_retry_at with _ | t <;> simp [h]

/-- **C9**: `getPendingOperations` returns exactly the queue rows whose
status is `pending` and whose `next_retry_at` is unset or not after the
given time, ordered ascending by creation time; rows that are
`in_progress`, `completed` or `failed`, and `pending` rows scheduled in
the future, are never returned. -/
theorem C9_pending_ready_set (now : Nat) (db : Db) :
    List.Sorted Database.createdLe (Database.getPendingOperations now db) ∧
    ∀ o : PendingOperation,
      (o ∈ Database.getPendingOperations now db ↔
        o ∈ db.pendingOps ∧ o.status = "pending" ∧
          (o.next_retry_at = none ∨ ∃ t, o.next_retry_at = some t ∧ t ≤ now)) := by
  constructor
  · exact List.sorted_insertionSort Database.createdLe _
  · intro o
    rw [Database.getPendingOperations, List.mem_insertionSort, List.mem_filter]
    constructor
    · rintro ⟨hmem, hf⟩
      exact ⟨hmem, (readyFilter_eq now o).mp hf⟩
    · rintro ⟨hmem, h1, h2⟩
      exact ⟨hmem, (readyFilter_eq now o).mpr ⟨h1, h2⟩⟩

/-- A ready example row for the queue witness. -/
def c9Op : PendingOperation :=
  { id := 1, operation_type := "update_notes", payload := (1, 1),
    status := "pending", retry_count := 0, max_retries := 3,
    next_retry_at := some 4, error_message := none, created_at := 2 }

theorem C9_pending_ready_set_witness :
    c9Op ∈ Database.getPendingOperations 10 { wDb with pendingOps := [c9Op] } :=
  ((C9_pending_ready_set 10 { wDb with pendingOps := [c9Op] }).2 c9Op).mpr
    ⟨List.mem_cons_self _ _, rfl, Or.inr ⟨4, rfl, by omega⟩⟩

/-! ## C10: the two fingerprint functions -/

/-- **C10** (counterexample): the claim that the fingerprint
function and the merger-side `hashNotes` agree on all inputs is false at
the empty string: the detector hashes `""` while `hashNotes` maps every
falsy value to `None`.  The disagreement holds for every digest function
(a `some` is never a `none`); it is exhibited at the identity placeholder
digest. -/
theorem C10_counterexample :
    ChangeDetector.hash (fun s => s) (some "") ≠
      PlacesRepository.hashNotes (fun s => s) (some "") := by
  simp [ChangeDetector.hash, PlacesRepository.hashNotes]

/-- **C10** (amended): the two fingerprint functions agree on null and on
every non-empty string, and disagree exactly on the empty string (the
detector hashes it, `hashNotes` stores `None`) — so the base fingerprint
written after a merge matches the fingerprint the detector computes on the next run for
every value except empty-string notes. -/
theorem C10_fingerprint_agreement (H : String → String) (v : Option String) :
    (v ≠ some "" → ChangeDetector.hash H v = PlacesRepository.hashNotes H v) ∧
    (v = some "" → ChangeDetector.hash H v ≠ PlacesRepository.hashNotes H v) := by
  constructor
  · intro hv
    rcases v with _ | s
    · rfl
    · have hs : s ≠ "" := fun h => hv (by rw [h])
      simp [ChangeDetector.hash, PlacesRepository.hashNotes, hs]
  · intro hv
    subst hv
    simp [ChangeDetector.hash, PlacesRepository.hashNotes]

theorem C10_fingerprint_agreement_witness :
    ChangeDetector.hash (fun s => s) (some "x") =
      PlacesRepository.hashNotes (fun s => s) (some "x") :=
  (C10_fingerprint_agreement (fun s => s) (some "x")).1 (by decide)
